import Mathlib

/-!
Verification of the support-request routing core of the `freedom` repository
(`backend/routing.py` and `backend/geocoding.py`).

The Python modules are shallowly embedded as pure Lean functions.  Mutable
module-level state (`_rr_counters`, `_foreign_counter`) is threaded
explicitly.  External effects (the 2GIS HTTP geocoder, `difflib` fuzzy
matching, and the floating-point haversine distance) are abstracted into a
`GeoEnv` record of oracle functions; everything else is translated
line-by-line from the source.  Coordinates and distances are modelled as
exact rationals.
-/

namespace Freedom

/-! ### Python string primitives

`pyLowerChar` models Python's `str.lower()` on the alphabets that occur in
the repository's data (ASCII, Russian Cyrillic, and the extra Kazakh
Cyrillic letters). -/

def pyLowerChar (c : Char) : Char :=
  if 'A' ≤ c ∧ c ≤ 'Z' then Char.ofNat (c.toNat + 32)
  else if 'А' ≤ c ∧ c ≤ 'Я' then Char.ofNat (c.toNat + 32)
  else if c = 'Ё' then 'ё'
  else if c = 'І' then 'і'
  else if c = 'Ә' ∨ c = 'Ғ' ∨ c = 'Қ' ∨ c = 'Ң' ∨ c = 'Ө' ∨ c = 'Ұ' ∨ c = 'Ү' ∨ c = 'Һ' then
    Char.ofNat (c.toNat + 1)
  else c

def pyLower (s : String) : String :=
  String.mk (s.data.map pyLowerChar)

/-- Python's `str.strip()`: drop leading and trailing whitespace. -/
def pyStrip (s : String) : String :=
  String.mk (((s.data.dropWhile Char.isWhitespace).reverse.dropWhile Char.isWhitespace).reverse)

/-- Python truthiness of an optional string: `None` and `""` are falsy. -/
def truthy : Option String → Bool
  | none => false
  | some s => !(s == "")

/-- Does the first list lead the second one (element-wise match at the head)? -/
def leadsWith : List Char → List Char → Bool
  | [], _ => true
  | _ :: _, [] => false
  | a :: as, b :: bs => a == b && leadsWith as bs

/-- Contiguous-sublist check underlying Python's `needle in hay`. -/
def listContainsSub (needle : List Char) : List Char → Bool
  | [] => needle.isEmpty
  | b :: bs => leadsWith needle (b :: bs) || listContainsSub needle bs

/-- Python's `needle in hay` on strings (contiguous substring). -/
def substrIn (needle hay : String) : Bool :=
  listContainsSub needle.data hay.data

/-- Python's `"True"` / `"False"` rendering used in f-string keys. -/
def pyBool : Bool → String
  | true => "True"
  | false => "False"

/-! ### Stable insertion sort

Python's `list.sort` / `sorted` are stable.  `sortBy le` is a stable
insertion sort: an element is inserted *before* the first existing element
`y` with `le x y`, so earlier elements precede later equal ones. -/

def insertBy {α : Type} (le : α → α → Bool) (x : α) : List α → List α
  | [] => [x]
  | y :: ys => if le x y then x :: y :: ys else y :: insertBy le x ys

def sortBy {α : Type} (le : α → α → Bool) : List α → List α
  | [] => []
  | x :: xs => insertBy le x (sortBy le xs)

theorem mem_insertBy {α : Type} (le : α → α → Bool) (x : α) (l : List α) (a : α) :
    a ∈ insertBy le x l ↔ a = x ∨ a ∈ l := by
  induction l with
  | nil => simp [insertBy]
  | cons y ys ih =>
    simp only [insertBy]
    split
    · simp [List.mem_cons]
    · simp only [List.mem_cons, ih]
      tauto

theorem mem_sortBy {α : Type} (le : α → α → Bool) (l : List α) (a : α) :
    a ∈ sortBy le l ↔ a ∈ l := by
  induction l with
  | nil => simp [sortBy]
  | cons x xs ih =>
    simp only [sortBy, mem_insertBy, List.mem_cons, ih]

theorem length_insertBy {α : Type} (le : α → α → Bool) (x : α) (l : List α) :
    (insertBy le x l).length = l.length + 1 := by
  induction l with
  | nil => rfl
  | cons y ys ih =>
    simp only [insertBy]
    split
    · rfl
    · simp [List.length_cons, ih]

theorem length_sortBy {α : Type} (le : α → α → Bool) (l : List α) :
    (sortBy le l).length = l.length := by
  induction l with
  | nil => rfl
  | cons x xs ih => simp [sortBy, length_insertBy, ih]

theorem pairwise_insertBy {α : Type} (le : α → α → Bool)
    (htot : ∀ a b, le a b = true ∨ le b a = true)
    (htrans : ∀ a b c, le a b = true → le b c = true → le a c = true)
    (x : α) (l : List α) (hl : l.Pairwise (fun a b => le a b = true)) :
    (insertBy le x l).Pairwise (fun a b => le a b = true) := by
  induction l with
  | nil => simp [insertBy]
  | cons y ys ih =>
    simp only [insertBy]
    rcases List.pairwise_cons.mp hl with ⟨hy, hys⟩
    split
    · rename_i hxy
      refine List.pairwise_cons.mpr ⟨?_, hl⟩
      intro a ha
      rcases List.mem_cons.mp ha with rfl | ha
      · exact hxy
      · exact htrans x y a hxy (hy a ha)
    · rename_i hxy
      have hyx : le y x = true := by
        rcases htot x y with h | h
        · exact absurd h hxy
        · exact h
      refine List.pairwise_cons.mpr ⟨?_, ih hys⟩
      intro a ha
      rcases (mem_insertBy le x ys a).mp ha with rfl | ha
      · exact hyx
      · exact hy a ha

theorem pairwise_sortBy {α : Type} (le : α → α → Bool)
    (htot : ∀ a b, le a b = true ∨ le b a = true)
    (htrans : ∀ a b c, le a b = true → le b c = true → le a c = true)
    (l : List α) :
    (sortBy le l).Pairwise (fun a b => le a b = true) := by
  induction l with
  | nil => simp [sortBy]
  | cons x xs ih => exact pairwise_insertBy le htot htrans x (sortBy le xs) ih

/-! ### Lexicographic comparison of `(distance, name)` pairs

Python's `sorted` on tuples compares componentwise; strings compare by
code points. -/

def charListLe : List Char → List Char → Bool
  | [], _ => true
  | _ :: _, [] => false
  | a :: as, b :: bs =>
    if a.toNat < b.toNat then true
    else if b.toNat < a.toNat then false
    else charListLe as bs

theorem charListLe_total (a b : List Char) :
    charListLe a b = true ∨ charListLe b a = true := by
  induction a generalizing b with
  | nil => left; rfl
  | cons x xs ih =>
    cases b with
    | nil => right; rfl
    | cons y ys =>
      simp only [charListLe]
      rcases Nat.lt_trichotomy x.toNat y.toNat with h | h | h
      · left; simp [h]
      · have h1 : ¬ x.toNat < y.toNat := by omega
        have h2 : ¬ y.toNat < x.toNat := by omega
        rcases ih ys with hr | hr
        · left; simp [h1, h2, hr]
        · right; simp [h1, h2, hr]
      · right; simp [h, Nat.lt_asymm h]

theorem charListLe_trans (a b c : List Char)
    (hab : charListLe a b = true) (hbc : charListLe b c = true) :
    charListLe a c = true := by
  induction a generalizing b c with
  | nil => rfl
  | cons x xs ih =>
    cases b with
    | nil => simp [charListLe] at hab
    | cons y ys =>
      cases c with
      | nil => simp [charListLe] at hbc
      | cons z zs =>
        simp only [charListLe] at hab hbc ⊢
        by_cases hxy : x.toNat < y.toNat
        · by_cases hyz : y.toNat < z.toNat
          · rw [if_pos (by omega : x.toNat < z.toNat)]
          · rw [if_neg hyz] at hbc
            by_cases hzy : z.toNat < y.toNat
            · rw [if_pos hzy] at hbc; exact absurd hbc (by decide)
            · rw [if_pos (by omega : x.toNat < z.toNat)]
        · rw [if_neg hxy] at hab
          by_cases hyx : y.toNat < x.toNat
          · rw [if_pos hyx] at hab; exact absurd hab (by decide)
          · rw [if_neg hyx] at hab
            by_cases hyz : y.toNat < z.toNat
            · rw [if_pos (by omega : x.toNat < z.toNat)]
            · rw [if_neg hyz] at hbc
              by_cases hzy : z.toNat < y.toNat
              · rw [if_pos hzy] at hbc; exact absurd hbc (by decide)
              · rw [if_neg hzy] at hbc
                rw [if_neg (by omega : ¬ x.toNat < z.toNat),
                  if_neg (by omega : ¬ z.toNat < x.toNat)]
                exact ih ys zs hab hbc

def strLe (a b : String) : Bool := charListLe a.data b.data

/-- Lexicographic `≤` on `(distance, office-name)` pairs, as Python compares
the tuples produced by `find_sorted_offices`. -/
def pairLe (a b : ℚ × String) : Bool :=
  decide (a.1 < b.1) || (decide (a.1 = b.1) && strLe a.2 b.2)

theorem pairLe_total (a b : ℚ × String) : pairLe a b = true ∨ pairLe b a = true := by
  unfold pairLe strLe
  rcases lt_trichotomy a.1 b.1 with h | h | h
  · left; simp [h]
  · rcases charListLe_total a.2.data b.2.data with hs | hs
    · left; simp [h, hs]
    · right; simp [h.symm, hs]
  · right; simp [h]

theorem pairLe_trans (a b c : ℚ × String)
    (hab : pairLe a b = true) (hbc : pairLe b c = true) : pairLe a c = true := by
  unfold pairLe strLe at *
  simp only [Bool.or_eq_true, Bool.and_eq_true, decide_eq_true_eq] at hab hbc ⊢
  rcases hab with h1 | ⟨h1, h1s⟩
  · rcases hbc with h2 | ⟨h2, _⟩
    · exact Or.inl (lt_trans h1 h2)
    · exact Or.inl (h2 ▸ h1)
  · rcases hbc with h2 | ⟨h2, h2s⟩
    · exact Or.inl (h1 ▸ h2)
    · exact Or.inr ⟨h1.trans h2, charListLe_trans _ _ _ h1s h2s⟩

theorem pairLe_fst (a b : ℚ × String) (h : pairLe a b = true) : a.1 ≤ b.1 := by
  unfold pairLe at h
  simp only [Bool.or_eq_true, Bool.and_eq_true, decide_eq_true_eq] at h
  rcases h with h | ⟨h, _⟩
  · exact le_of_lt h
  · exact le_of_eq h

/-! ### Data model (`models.py`)

`Manager` mirrors the `managers` table: nullable `position`, `office` and
`skills` columns, and a non-negative `current_load` counter. -/

structure Manager where
  id : Nat
  full_name : String
  position : Option String
  office : Option String
  skills : Option (List String)
  current_load : Nat
deriving DecidableEq, Repr

/-- Python `m.skills and s in m.skills`. -/
def skillsContain (m : Manager) (s : String) : Bool :=
  match m.skills with
  | some l => l.contains s
  | none => false

/-- Python `m.position and s in m.position` (substring containment). -/
def posContains (m : Manager) (s : String) : Bool :=
  match m.position with
  | some p => substrIn s p
  | none => false

/-! ### Static tables (`geocoding.py`)

Python dicts are embedded as association lists in insertion order (dict
iteration order in Python is insertion order, which matters for the
substring tier of `geocode_client` and for `CITY_TO_OFFICES`). -/

/-- First-match association-list lookup, Python `dict.get`. -/
def tblLookup {α : Type} : List (String × α) → String → Option α
  | [], _ => none
  | (k, v) :: rest, key => if k = key then some v else tblLookup rest key

def KZ_CITY_COORDS : List (String × ℚ × ℚ) := [
  ("Алматы", 43.2220, 76.8512), ("Астана", 51.1694, 71.4491),
  ("Нур-Султан", 51.1694, 71.4491), ("Шымкент", 42.3417, 69.5901),
  ("Усть-Каменогорск", 49.9481, 82.6278), ("Семей", 50.4111, 80.2275),
  ("Актобе", 50.2797, 57.2070), ("Тараз", 42.9000, 71.3667),
  ("Павлодар", 52.2979, 76.9673), ("Атырау", 47.0945, 51.9236),
  ("Костанай", 53.2141, 63.6246), ("Кызылорда", 44.8481, 65.5097),
  ("Уральск", 51.2333, 51.3667), ("Петропавловск", 54.8694, 69.1568),
  ("Актау", 43.6415, 51.1727), ("Темиртау", 50.0597, 72.9594),
  ("Туркестан", 43.3000, 68.2667), ("Кокшетау", 53.2837, 69.3921),
  ("Талдыкорган", 45.0167, 78.3667), ("Экибастуз", 51.7167, 75.3333),
  ("Рудный", 52.9667, 63.1167), ("Жезказган", 47.8000, 67.7333),
  ("Балхаш", 46.8500, 74.9833), ("Аксу", 52.0350, 76.9025),
  ("Жанаозен", 43.3333, 52.8667), ("Сарань", 49.8167, 72.8833),
  ("Шахтинск", 49.7167, 72.6000), ("Аркалык", 50.2500, 66.9167),
  ("Кентау", 43.5167, 68.5000), ("Ленгер", 42.1667, 69.8833),
  ("Бадам", 42.2667, 70.0000), ("Шардара", 41.2667, 68.0667),
  ("Тургень", 43.5000, 77.5000), ("Красный Яр", 51.5000, 70.5000),
  ("Кокпекты", 49.0333, 81.1333), ("Осакаровка", 50.1000, 72.5333),
  ("Шортанды", 51.6833, 71.0167), ("Индербор", 48.5500, 51.8000),
  ("Конаев", 43.8667, 77.0667), ("Капчагай", 43.8667, 77.0667),
  ("Кокпек", 43.8000, 78.0000), ("Бескарагай", 51.5000, 81.5000),
  ("Косшы", 51.1833, 71.6500), ("Кыргауылды", 43.6833, 76.9000),
  ("Бейнеу", 45.2667, 55.1333), ("Жаркент", 44.1667, 80.0000),
  ("Откалык", 43.5500, 68.3000), ("Степногорск", 52.3500, 71.8833),
  ("Каратау", 43.1833, 70.4667), ("Каскелен", 43.1983, 76.6217),
  ("Талгар", 43.3000, 77.2667), ("Есик", 43.3500, 77.4333),
  ("Кандыагаш", 49.4667, 57.4333), ("Лисаковск", 52.5500, 62.5000),
  ("Байконур", 45.6200, 63.3028), ("Жетысай", 40.7667, 68.3333),
  ("Казалинск", 45.7667, 62.1000), ("Аральск", 46.7833, 61.6667),
  ("Кызылжар", 54.8694, 69.1568), ("Курчатов", 50.7333, 78.5333),
  ("Каражал", 47.9167, 70.8000), ("Сатпаев", 47.9000, 67.5333),
  ("Приозёрск", 46.0833, 73.9333), ("Каратобе", 50.6167, 60.0000),
  ("Хромтау", 50.2500, 58.4500), ("Шалкар", 47.8333, 59.6000),
  ("Кандагач", 49.4667, 57.4333), ("Эмба", 48.8333, 58.1500),
  ("Жем", 48.0500, 56.4667), ("Курган", 54.8694, 69.1568),
  ("Тобыл", 53.2141, 63.6246), ("Магнитогорск", 53.2141, 63.6246),
  ("Бурабай", 53.0667, 70.2500), ("Щучинск", 52.9333, 70.2000),
  ("Карагандинская", 49.8047, 73.1094), ("Алматинская", 43.2220, 76.8512),
  ("Акмолинская", 51.1694, 71.4491), ("Актюбинская", 50.2797, 57.2070),
  ("Атырауская", 47.0945, 51.9236), ("Восточно-Казахстанская", 49.9481, 82.6278),
  ("Жамбылская", 42.9000, 71.3667), ("Западно-Казахстанская", 51.2333, 51.3667),
  ("Костанайская", 53.2141, 63.6246), ("Кызылординская", 44.8481, 65.5097),
  ("Мангистауская", 43.6415, 51.1727), ("Павлодарская", 52.2979, 76.9673),
  ("Северо-Казахстанская", 54.8694, 69.1568), ("Туркестанская", 43.3000, 68.2667),
  ("ЮКО", 42.3417, 69.5901), ("Mangystau", 43.6415, 51.1727),
  ("Абайская", 50.4111, 80.2275), ("Улытауская", 47.8000, 67.7333),
  ("Жетысуская", 45.0167, 78.3667), ("Семипалатинская", 50.4111, 80.2275)]

def OFFICE_COORDS : List (String × ℚ × ℚ) := [
  ("Актау", 43.6356, 51.1683), ("Актобе", 50.3002, 57.1541),
  ("Алматы", 43.2183, 76.8932), ("Астана", 51.1295, 71.4431),
  ("Атырау", 47.1180, 51.9706), ("Караганда", 49.8156, 73.0833),
  ("Кокшетау", 53.2828, 69.3786), ("Костанай", 53.2146, 63.6319),
  ("Кызылорда", 44.8249, 65.5026), ("Павлодар", 52.2856, 76.9412),
  ("Петропавловск", 54.8617, 69.1394), ("Тараз", 42.8896, 71.3532),
  ("Уральск", 51.2040, 51.3705), ("Усть-Каменогорск", 49.9482, 82.6280),
  ("Шымкент", 42.3154, 69.5870)]

/-- `dict.setdefault(key, []).append(name)` on an association list. -/
def insertAppend : List (String × List String) → String → String → List (String × List String)
  | [], k, v => [(k, [v])]
  | (k', vs) :: rest, k, v =>
    if k' = k then (k', vs ++ [v]) :: rest else (k', vs) :: insertAppend rest k v

/-- Normalised city name → list of office names, built by folding over
`OFFICE_COORDS` exactly as the module-level loop in `geocoding.py` does. -/
def CITY_TO_OFFICES : List (String × List String) :=
  OFFICE_COORDS.foldl (fun acc nc => insertAppend acc (pyLower (pyStrip nc.1)) nc.1) []

def LATIN_TO_CYRILLIC : List (String × String) := [
  ("aktau", "Актау"), ("aktobe", "Актобе"), ("aktyubinsk", "Актобе"),
  ("almaty", "Алматы"), ("alma-ata", "Алматы"), ("almaata", "Алматы"),
  ("astana", "Астана"), ("nur-sultan", "Астана"), ("nursultan", "Астана"),
  ("atyrau", "Атырау"), ("karaganda", "Караганда"), ("karagandy", "Караганда"),
  ("kokshetau", "Кокшетау"), ("kokchetav", "Кокшетау"),
  ("kostanay", "Костанай"), ("kustanai", "Костанай"),
  ("kyzylorda", "Кызылорда"), ("pavlodar", "Павлодар"),
  ("petropavlovsk", "Петропавловск"), ("taraz", "Тараз"), ("zhambyl", "Тараз"),
  ("uralsk", "Уральск"), ("oral", "Уральск"),
  ("ust-kamenogorsk", "Усть-Каменогорск"), ("ust kamenogorsk", "Усть-Каменогорск"),
  ("oskemen", "Усть-Каменогорск"), ("shymkent", "Шымкент"),
  ("chimkent", "Шымкент"), ("semey", "Семей"), ("semipalatinsk", "Семей"),
  ("akmola", "Акмолинская"), ("akmolinsk", "Акмолинская"),
  ("aktobe region", "Актюбинская"), ("almaty region", "Алматинская"),
  ("atyrau region", "Атырауская"), ("east kazakhstan", "Восточно-Казахстанская"),
  ("zhambyl region", "Жамбылская"), ("west kazakhstan", "Западно-Казахстанская"),
  ("karaganda region", "Карагандинская"), ("kostanay region", "Костанайская"),
  ("kyzylorda region", "Кызылординская"), ("mangystau", "Мангистауская"),
  ("pavlodar region", "Павлодарская"), ("north kazakhstan", "Северо-Казахстанская"),
  ("turkestan region", "Туркестанская"), ("south kazakhstan", "Туркестанская")]

/-- `_latin_to_cyrillic`: canonical Cyrillic name for a known Latin alias,
else the input unchanged. -/
def latin_to_cyrillic (name : String) : String :=
  (tblLookup LATIN_TO_CYRILLIC (pyLower (pyStrip name))).getD name

/-! ### External-effect oracles

`GeoEnv` packages everything outside the pure fragment of `geocoding.py`:
the configured API key (`os.getenv`, empty string when unset), the remote
2GIS geocoder (an HTTP call whose parsed reply, including the
no-items/exception cases, is a plain `Option` result), `difflib`
close-match oracles, and the floating-point haversine distance. -/

structure GeoEnv where
  apiKey : String
  remote : String → Option (ℚ × ℚ)
  closeMatchCity : String → Option String
  closeMatchOffice : String → Option String
  dist : ℚ → ℚ → ℚ → ℚ → ℚ

/-- Kazakhstan bounding box `_in_kz_bbox`. -/
def in_kz_bbox (lat lon : ℚ) : Bool :=
  decide ((40.5 : ℚ) ≤ lat) && decide (lat ≤ (55.5 : ℚ)) &&
  decide ((50.2 : ℚ) ≤ lon) && decide (lon ≤ (87.4 : ℚ))

/-- `_twogis_geocode`: with no configured key the call is skipped and the
function returns `None`; otherwise the remote oracle answers.  Rate
limiting (`time.sleep`) has no functional effect and is not modelled. -/
def twogis_geocode (env : GeoEnv) (query : String) : Option (ℚ × ℚ) :=
  if pyStrip env.apiKey = "" then none else env.remote query

/-- `_fuzzy_city_lookup`: difflib close match against `KZ_CITY_COORDS`
keys, then the matched key's coordinate. -/
def fuzzy_city_lookup (env : GeoEnv) (name : String) : Option (ℚ × ℚ) :=
  match env.closeMatchCity name with
  | some key => tblLookup KZ_CITY_COORDS key
  | none => none

/-- `fuzzy_office_city`: exact normalised lookup in `CITY_TO_OFFICES`
(ambiguous → `None`), falling back to a difflib match over office names. -/
def fuzzy_office_city (env : GeoEnv) (city_name : String) : Option String :=
  if city_name = "" then none
  else
    let city_name := latin_to_cyrillic city_name
    let norm := pyLower (pyStrip city_name)
    match tblLookup CITY_TO_OFFICES norm with
    | some offices =>
      match offices with
      | [o] => some o
      | _ => none
    | none => env.closeMatchOffice city_name

/-- `", ".join([p for p in parts if p])`. -/
def joinParts (parts : List (Option String)) : String :=
  String.intercalate ", "
    (parts.filterMap fun p => match p with
      | some s => if s = "" then none else some s
      | none => none)

/-- `geocode_client`: the five-tier resolution cascade (2GIS city+region,
2GIS region, exact gazetteer on region, typo-tolerant gazetteer, substring
containment), first hit wins; remote hits outside the Kazakhstan bounding
box are discarded.  `street`/`house` are intentionally unused, as in the
source. -/
def geocode_client (env : GeoEnv) (city region country : Option String)
    (street house : Option String) : Option (ℚ × ℚ) :=
  let _ := country
  let _ := street
  let _ := house
  let city := if truthy city then city.map latin_to_cyrillic else city
  let region := if truthy region then region.map latin_to_cyrillic else region
  let tier1 : Option (ℚ × ℚ) :=
    if truthy city then
      match twogis_geocode env (joinParts [city, region, some "Казахстан"]) with
      | some (la, lo) => if in_kz_bbox la lo then some (la, lo) else none
      | none => none
    else none
  match tier1 with
  | some c => some c
  | none =>
    let tier2 : Option (ℚ × ℚ) :=
      if truthy region then
        match twogis_geocode env (joinParts [region, some "Казахстан"]) with
        | some (la, lo) => if in_kz_bbox la lo then some (la, lo) else none
        | none => none
      else none
    match tier2 with
    | some c => some c
    | none =>
      match region with
      | none => none
      | some r =>
        if r = "" then none
        else
          match tblLookup KZ_CITY_COORDS r with
          | some c => some c
          | none =>
            match fuzzy_city_lookup env r with
            | some c => some c
            | none =>
              (KZ_CITY_COORDS.find? fun kc =>
                substrIn (pyLower kc.1) (pyLower r) || substrIn (pyLower r) (pyLower kc.1)).map
                (·.2)

/-- `find_sorted_offices`: all offices sorted ascending by
`(distance, name)` tuples, exactly as Python's `sorted` compares them. -/
def find_sorted_offices (env : GeoEnv) (client_lat client_lon : ℚ) : List (ℚ × String) :=
  sortBy pairLe
    (OFFICE_COORDS.map fun nc => (env.dist client_lat client_lon nc.2.1 nc.2.2, nc.1))

/-- `is_foreign`: `True` only for a non-empty country value whose
normalisation is not a recognised Kazakhstan spelling. -/
def is_foreign : Option String → Bool
  | none => false
  | some c =>
    if c = "" then false
    else !(["казахстан", "kazakhstan", "kz", "қазақстан"].contains (pyLower (pyStrip c)))

/-! ### Routing (`routing.py`)

The module-level mutable dictionaries `_rr_counters` and
`_foreign_counter[0]` are threaded explicitly: `RRState` is the rotation
dictionary (an association list with Python-dict update semantics) and a
`Nat` carries the shared foreign counter. -/

abbrev RRState : Type := List (String × Nat)

/-- `_rr_counters.get(key, 0)`. -/
def rrGet : RRState → String → Nat
  | [], _ => 0
  | (k, v) :: rest, key => if k = key then v else rrGet rest key

/-- `_rr_counters[key] = value` (update in place, else append). -/
def rrSet : RRState → String → Nat → RRState
  | [], key, value => [(key, value)]
  | (k, v) :: rest, key, value =>
    if k = key then (key, value) :: rest else (k, v) :: rrSet rest key value

def EQUIDISTANT_THRESHOLD_KM : ℚ := 50.0

/-- `_office_load`: aggregate current load of the managers at an office. -/
def office_load (managers : List Manager) (office : String) : Nat :=
  ((managers.filter fun m => m.office == some office).map Manager.current_load).sum

/-- `build_rr_key`: stable rotation key from the eligibility flags. -/
def build_rr_key (office : String) (is_vip is_data_change : Bool)
    (language : String) (needs_senior : Bool) : String :=
  let lang := if language = "KZ" ∨ language = "ENG" then language else "RU"
  office ++ "|vip=" ++ pyBool is_vip ++ "|data=" ++ pyBool is_data_change ++
    "|lang=" ++ lang ++ "|senior=" ++ pyBool needs_senior

/-- The single-office shortcut of `get_target_office` (lines 142–154): a
city fuzzy-matching a city with exactly one office short-circuits to that
office, with a coordinate fetched from `KZ_CITY_COORDS` for storage only. -/
def city_shortcut (env : GeoEnv) (city : Option String) :
    Option (String × Option ℚ × Option ℚ) :=
  if truthy city then
    match fuzzy_office_city env (city.getD "") with
    | some matched =>
      let offices_in_city := (tblLookup CITY_TO_OFFICES (pyLower (pyStrip matched))).getD []
      if offices_in_city.length = 1 then
        match tblLookup KZ_CITY_COORDS matched with
        | some (la, lo) => some (matched, some la, some lo)
        | none => some (matched, none, none)
      else none
    | none => none
  else none

/-- `get_target_office`: foreign 50/50 hub split, else the single-office
city shortcut, else geocoding with the nearest-office / equidistance
tie-break.  Returns `((office, lat, lon), foreign_counter')`.  The
unreachable empty-offices case (Python would raise `IndexError`; the
catalog has 15 entries) returns a placeholder. -/
def get_target_office (env : GeoEnv) (country city region street house : Option String)
    (managers : Option (List Manager)) (fc : Nat) :
    (String × Option ℚ × Option ℚ) × Nat :=
  if is_foreign country then
    (((if fc % 2 = 0 then "Астана" else "Алматы"), none, none), fc + 1)
  else
    match city_shortcut env city with
    | some r => (r, fc)
    | none =>
      match geocode_client env city region country street house with
      | none => (((if fc % 2 = 0 then "Астана" else "Алматы"), none, none), fc + 1)
      | some (lat, lon) =>
        match find_sorted_offices env lat lon with
        | [] => (("", some lat, some lon), fc)
        | (dist1, office1) :: rest =>
          match managers, rest with
          | some ms, (dist2, office2) :: _ =>
            if dist2 - dist1 ≤ EQUIDISTANT_THRESHOLD_KM then
              (((if office_load ms office1 ≤ office_load ms office2 then office1
                 else office2), some lat, some lon), fc)
            else ((office1, some lat, some lon), fc)
          | _, _ => ((office1, some lat, some lon), fc)

/-- The hard-filter prefix of `filter_managers` (office membership, VIP,
data-change seniority, language skills), before the workload sort. -/
def hard_filtered (managers : List Manager) (office : Option String)
    (segment ticket_type language : String) : List Manager :=
  let pool :=
    if truthy office then managers.filter fun m => m.office == office
    else managers.filter fun m => truthy m.office
  let pool :=
    if segment = "VIP" ∨ segment = "Priority" then pool.filter (skillsContain · "VIP")
    else pool
  let pool :=
    if ticket_type = "Смена данных" then pool.filter (posContains · "Главный специалист")
    else pool
  if language = "KZ" then pool.filter (skillsContain · "KZ")
  else if language = "ENG" then pool.filter (skillsContain · "ENG")
  else pool

/-- Seniority test of the soft negative-tone preference. -/
def isSenior (m : Manager) : Bool :=
  posContains m "Ведущий специалист" || posContains m "Главный специалист"

/-- Stable ascending sort by `current_load`, Python `pool.sort(key=...)`. -/
def sortByLoad (pool : List Manager) : List Manager :=
  sortBy (fun a b => decide (a.current_load ≤ b.current_load)) pool

/-- `filter_managers`: hard filters, stable sort ascending by load, soft
senior preference on negative sentiment (only when the senior subset is
non-empty), then truncation to `limit`. -/
def filter_managers (managers : List Manager) (office : Option String)
    (segment ticket_type language sentiment : String) (limit : Option Nat) : List Manager :=
  let pool := sortByLoad (hard_filtered managers office segment ticket_type language)
  let pool :=
    if sentiment = "Негативный" then
      let senior_pool := pool.filter isSenior
      if senior_pool.isEmpty then pool else senior_pool
    else pool
  match limit with
  | none => pool
  | some n => pool.take n

/-- `assign_manager`: round-robin pick at `counter % |pool|`, incrementing
the counter; an empty pool yields `(None, 0)` with the state untouched. -/
def assign_manager (st : RRState) (eligible : List Manager) (rr_key : String) :
    (Option Manager × Nat) × RRState :=
  match eligible with
  | [] => ((none, 0), st)
  | _ =>
    let current := rrGet st rr_key
    let idx := current % eligible.length
    ((eligible[idx]?, idx), rrSet st rr_key (current + 1))

/-- The fallback `while` loop of `route_ticket`: scan the hub list while
the pool is empty, skipping the office already tried; a hub with a
non-empty pool becomes the new office. -/
def fallback_scan (managers : List Manager) (segment ticket_type language sentiment : String)
    (office : String) (eligible : List Manager) :
    List String → String × List Manager
  | [] => (office, eligible)
  | f :: rest =>
    if eligible.isEmpty then
      if f ≠ office then
        let e := filter_managers managers (some f) segment ticket_type language sentiment (some 2)
        if e.isEmpty then fallback_scan managers segment ticket_type language sentiment office e rest
        else fallback_scan managers segment ticket_type language sentiment f e rest
      else fallback_scan managers segment ticket_type language sentiment office eligible rest
    else (office, eligible)

/-- Output value of `route_ticket` (spec: `RoutingDecision`). -/
structure RoutingDecision where
  manager : Option Manager
  office : String
  lat : Option ℚ
  lon : Option ℚ
  rr_index : Nat
deriving DecidableEq, Repr

/-- `route_ticket`: office selection, eligibility filter, hub fallback,
rotation-key construction and round-robin assignment.  Returns the
decision together with the updated `(rr_counters, foreign_counter)`. -/
def route_ticket (env : GeoEnv) (st : RRState) (fc : Nat) (managers : List Manager)
    (country city region : Option String) (segment ticket_type language sentiment : String)
    (street house : Option String) : RoutingDecision × RRState × Nat :=
  let gto := get_target_office env country city region street house (some managers) fc
  let eligible0 :=
    filter_managers managers (some gto.1.1) segment ticket_type language sentiment (some 2)
  let fe :=
    fallback_scan managers segment ticket_type language sentiment gto.1.1 eligible0
      ["Астана", "Алматы"]
  let is_vip := decide (segment = "VIP" ∨ segment = "Priority")
  let is_data_change := decide (ticket_type = "Смена данных")
  let needs_senior := decide (sentiment = "Негативный")
  let rr_key := build_rr_key fe.1 is_vip is_data_change language needs_senior
  let am := assign_manager st fe.2 rr_key
  (⟨am.1.1, fe.1, gto.1.2.1, gto.1.2.2, am.1.2⟩, am.2, gto.2)

/-- `N` consecutive `assign_manager` calls with a fixed pool and key;
returns the final rotation state and the `(manager, index)` results in
call order. -/
def assignN (pool : List Manager) (rr_key : String) (st : RRState) :
    Nat → RRState × List (Option Manager × Nat)
  | 0 => (st, [])
  | n + 1 =>
    let (res, st1) := assign_manager st pool rr_key
    let (st2, rest) := assignN pool rr_key st1 n
    (st2, res :: rest)

/-- The purely local tail of `geocode_client` (tiers 3–5): exact gazetteer
match on the normalised region, then the typo-tolerant match, then the
substring containment scan. -/
def local_gazetteer (env : GeoEnv) (region : Option String) : Option (ℚ × ℚ) :=
  let region := if truthy region then region.map latin_to_cyrillic else region
  match region with
  | none => none
  | some r =>
    if r = "" then none
    else
      match tblLookup KZ_CITY_COORDS r with
      | some c => some c
      | none =>
        match fuzzy_city_lookup env r with
        | some c => some c
        | none =>
          (KZ_CITY_COORDS.find? fun kc =>
            substrIn (pyLower kc.1) (pyLower r) || substrIn (pyLower r) (pyLower kc.1)).map
            (·.2)

/-- A stream of office selections: `get_target_office` applied to each
`(country, city, region)` query in turn, threading the foreign counter. -/
def get_target_seq (env : GeoEnv) (managers : Option (List Manager)) (fc : Nat) :
    List (Option String × Option String × Option String) →
    List (String × Option ℚ × Option ℚ) × Nat
  | [] => ([], fc)
  | q :: qs =>
    let (r, fc') := get_target_office env q.1 q.2.1 q.2.2 none none managers fc
    let (rs, fc'') := get_target_seq env managers fc' qs
    (r :: rs, fc'')

/-! ### Rotation-state dictionary lemmas -/

theorem rrGet_rrSet_self (st : RRState) (k : String) (v : Nat) :
    rrGet (rrSet st k v) k = v := by
  induction st with
  | nil => simp [rrSet, rrGet]
  | cons p rest ih =>
    obtain ⟨k', v'⟩ := p
    by_cases h : k' = k
    · simp [rrSet, rrGet, h]
    · simp [rrSet, rrGet, h, ih]

theorem rrGet_rrSet_ne (st : RRState) (k : String) (v : Nat) (k' : String) (h : k' ≠ k) :
    rrGet (rrSet st k v) k' = rrGet st k' := by
  have hk : ¬ (k = k') := fun e => h e.symm
  induction st with
  | nil => simp [rrSet, rrGet, hk]
  | cons p rest ih =>
    obtain ⟨k0, v0⟩ := p
    by_cases h0 : k0 = k
    · subst h0
      simp [rrSet, rrGet, hk]
    · simp [rrSet, rrGet, h0, ih]

/-! ### Sample data for the concrete witnesses -/

def envW : GeoEnv :=
  ⟨"", fun _ => none, fun _ => none, fun _ => none, fun _ _ la _ => la⟩

def mgrA : Manager := ⟨1, "A", some "Специалист", some "Астана", some ["KZ"], 2⟩

def mgrB : Manager := ⟨2, "B", some "Ведущий специалист", some "Алматы", some ["KZ", "VIP"], 1⟩

/-! ### C10 — rotation index safety -/

/-- C10: for every non-empty eligible pool and every rotation key,
`assign_manager` returns index `counter % |pool|` (stored counter
defaulting to 0), which is in range, together with exactly the pool member
at that position; the key's counter increases by exactly one and no other
key's counter changes. -/
theorem assign_manager_index_safe (st : RRState) (pool : List Manager) (key : String)
    (hp : pool ≠ []) :
    rrGet st key % pool.length < pool.length ∧
    (assign_manager st pool key).1 =
      (pool[rrGet st key % pool.length]?, rrGet st key % pool.length) ∧
    (∃ m, pool[rrGet st key % pool.length]? = some m) ∧
    rrGet (assign_manager st pool key).2 key = rrGet st key + 1 ∧
    (∀ k', k' ≠ key → rrGet (assign_manager st pool key).2 k' = rrGet st k') := by
  have hlen : 0 < pool.length := List.length_pos.mpr hp
  have hidx : rrGet st key % pool.length < pool.length := Nat.mod_lt _ hlen
  obtain ⟨m0, ms, rfl⟩ : ∃ m0 ms, pool = m0 :: ms := by
    cases pool with
    | nil => exact absurd rfl hp
    | cons a l => exact ⟨a, l, rfl⟩
  refine ⟨hidx, rfl, ⟨_, List.getElem?_eq_getElem hidx⟩, ?_, ?_⟩
  · exact rrGet_rrSet_self st key _
  · intro k' hk'
    exact rrGet_rrSet_ne st key _ k' hk'

theorem assign_manager_index_safe_witness :
    rrGet [] "k" % [mgrA].length < [mgrA].length ∧
    (assign_manager [] [mgrA] "k").1 =
      ([mgrA][rrGet [] "k" % [mgrA].length]?, rrGet [] "k" % [mgrA].length) ∧
    (∃ m, [mgrA][rrGet [] "k" % [mgrA].length]? = some m) ∧
    rrGet (assign_manager [] [mgrA] "k").2 "k" = rrGet [] "k" + 1 ∧
    (∀ k', k' ≠ "k" → rrGet (assign_manager [] [mgrA] "k").2 k' = rrGet [] k') :=
  assign_manager_index_safe [] [mgrA] "k" (by decide)

/-! ### C6 — empty-pool terminal state -/

theorem fallback_scan_all_empty (managers : List Manager) (seg tt lang sent office : String)
    (hA : filter_managers managers (some "Астана") seg tt lang sent (some 2) = [])
    (hB : filter_managers managers (some "Алматы") seg tt lang sent (some 2) = []) :
    fallback_scan managers seg tt lang sent office [] ["Астана", "Алматы"] = (office, []) := by
  by_cases h1 : "Астана" = office <;> by_cases h2 : "Алматы" = office <;>
    simp [fallback_scan, h1, h2, hA, hB]

/-- C6: when no office — the selected one nor either fallback hub — has an
eligible staff member, the decision carries a null manager and rotation
index 0 and the rotation dictionary is left untouched; equivalently,
`assign_manager` on an empty pool returns `(None, 0)` without mutating
state. -/
theorem route_ticket_empty_pools (env : GeoEnv) (st : RRState) (fc : Nat)
    (managers : List Manager) (country city region : Option String)
    (segment tt lang sent : String) (street house : Option String)
    (h0 : filter_managers managers
        (some (get_target_office env country city region street house (some managers) fc).1.1)
        segment tt lang sent (some 2) = [])
    (hA : filter_managers managers (some "Астана") segment tt lang sent (some 2) = [])
    (hB : filter_managers managers (some "Алматы") segment tt lang sent (some 2) = []) :
    (route_ticket env st fc managers country city region segment tt lang sent street house).1.manager
      = none ∧
    (route_ticket env st fc managers country city region segment tt lang sent street house).1.rr_index
      = 0 ∧
    (route_ticket env st fc managers country city region segment tt lang sent street house).2.1
      = st ∧
    ∀ (st' : RRState) (k' : String), assign_manager st' [] k' = ((none, 0), st') := by
  have hfb := fallback_scan_all_empty managers segment tt lang sent
    (get_target_office env country city region street house (some managers) fc).1.1 hA hB
  simp [route_ticket, h0, hfb, assign_manager]

theorem route_ticket_empty_pools_witness :
    filter_managers []
        (some (get_target_office envW (some "Russia") none none none none (some []) 0).1.1)
        "Mass" "Жалоба" "RU" "Нейтральный" (some 2) = [] ∧
    filter_managers [] (some "Астана") "Mass" "Жалоба" "RU" "Нейтральный" (some 2) = [] ∧
    filter_managers [] (some "Алматы") "Mass" "Жалоба" "RU" "Нейтральный" (some 2) = [] ∧
    (route_ticket envW [("x", 5)] 0 [] (some "Russia") none none "Mass" "Жалоба" "RU" "Нейтральный" none none).1.manager
      = none ∧
    (route_ticket envW [("x", 5)] 0 [] (some "Russia") none none "Mass" "Жалоба" "RU" "Нейтральный" none none).1.rr_index
      = 0 ∧
    (route_ticket envW [("x", 5)] 0 [] (some "Russia") none none "Mass" "Жалоба" "RU" "Нейтральный" none none).2.1
      = [("x", 5)] := by
  have h := route_ticket_empty_pools envW [("x", 5)] 0 [] (some "Russia") none none
    "Mass" "Жалоба" "RU" "Нейтральный" none none (by decide) (by decide) (by decide)
  exact ⟨by decide, by decide, by decide, h.1, h.2.1, h.2.2.1⟩

/-! ### C1 — round-robin fairness

Counting how often each residue is hit by `counter % k` over `N`
consecutive counter values. -/

theorem countP_range_mod (k r : Nat) (hk : 0 < k) (hr : r < k) (N : Nat) :
    (List.range N).countP (fun i => decide (i % k = r))
      = N / k + if r < N % k then 1 else 0 := by
  induction N with
  | zero => simp [Nat.zero_mod]
  | succ n ih =>
    rw [List.range_succ, List.countP_append, ih]
    have hs : n % k < k := Nat.mod_lt _ hk
    have hqs : k * (n / k) + n % k = n := Nat.div_add_mod n k
    by_cases hcase : n % k + 1 = k
    · have h1 : n + 1 = k * (n / k + 1) := by rw [Nat.mul_succ]; omega
      have hdiv : (n + 1) / k = n / k + 1 := by
        rw [h1, Nat.mul_div_cancel_left _ hk]
      have hmod : (n + 1) % k = 0 := by
        rw [h1, Nat.mul_mod_right]
      rw [hdiv, hmod]
      simp only [List.countP_cons, List.countP_nil, decide_eq_true_eq]
      split_ifs with h2 h3 <;> omega
    · have hlt : n % k + 1 < k := by omega
      have h1 : n + 1 = k * (n / k) + (n % k + 1) := by omega
      have hdiv : (n + 1) / k = n / k := by
        rw [h1, Nat.mul_add_div hk, Nat.div_eq_of_lt hlt, Nat.add_zero]
      have hmod : (n + 1) % k = n % k + 1 := by
        rw [h1, Nat.mul_add_mod, Nat.mod_eq_of_lt hlt]
      rw [hdiv, hmod]
      simp only [List.countP_cons, List.countP_nil, decide_eq_true_eq]
      split_ifs with h2 h3 <;> omega

/-- The residue hit by position `j` when the counter starts at `c`. -/
def residueOf (k c j : Nat) : Nat :=
  if c % k ≤ j then j - c % k else j + k - c % k

theorem shift_mod_eq (k c j : Nat) (hk : 0 < k) (hj : j < k) (i : Nat) :
    ((c + i) % k = j) ↔ (i % k = residueOf k c j) := by
  have ha : c % k < k := Nat.mod_lt _ hk
  have hb : i % k < k := Nat.mod_lt _ hk
  rw [Nat.add_mod]
  unfold residueOf
  by_cases hab : c % k + i % k < k
  · rw [Nat.mod_eq_of_lt hab]
    split <;> omega
  · have h2 : c % k + i % k - k < k := by omega
    have h3 : (c % k + i % k) % k = c % k + i % k - k := by
      rw [Nat.mod_eq_sub_mod (by omega), Nat.mod_eq_of_lt h2]
    rw [h3]
    split <;> omega

theorem countP_range_shift_mod (k c j : Nat) (hk : 0 < k) (hj : j < k) (N : Nat) :
    (List.range N).countP (fun i => decide ((c + i) % k = j))
      = N / k + if residueOf k c j < N % k then 1 else 0 := by
  have hr : residueOf k c j < k := by
    have := Nat.mod_lt c hk
    unfold residueOf
    split <;> omega
  rw [← countP_range_mod k (residueOf k c j) hk hr N]
  apply List.countP_congr
  intro a _
  simp only [decide_eq_true_eq]
  exact shift_mod_eq k c j hk hj a

theorem assignN_spec (pool : List Manager) (key : String) (hp : pool ≠ [])
    (st : RRState) (n : Nat) :
    (assignN pool key st n).2
      = (List.range n).map (fun i =>
          (pool[(rrGet st key + i) % pool.length]?, (rrGet st key + i) % pool.length)) ∧
    rrGet (assignN pool key st n).1 key = rrGet st key + n := by
  obtain ⟨m0, ms, rfl⟩ : ∃ m0 ms, pool = m0 :: ms := by
    cases pool with
    | nil => exact absurd rfl hp
    | cons a l => exact ⟨a, l, rfl⟩
  induction n generalizing st with
  | zero => exact ⟨rfl, rfl⟩
  | succ n ih =>
    have hstep : assign_manager st (m0 :: ms) key
        = (((m0 :: ms)[rrGet st key % (m0 :: ms).length]?, rrGet st key % (m0 :: ms).length),
           rrSet st key (rrGet st key + 1)) := rfl
    have hget : rrGet (rrSet st key (rrGet st key + 1)) key = rrGet st key + 1 :=
      rrGet_rrSet_self st key _
    obtain ⟨ih1, ih2⟩ := ih (rrSet st key (rrGet st key + 1))
    rw [hget] at ih1 ih2
    constructor
    · show (assign_manager st (m0 :: ms) key).1 ::
        (assignN (m0 :: ms) key (assign_manager st (m0 :: ms) key).2 n).2 = _
      rw [hstep]
      rw [show ((((m0 :: ms)[rrGet st key % (m0 :: ms).length]?,
          rrGet st key % (m0 :: ms).length), rrSet st key (rrGet st key + 1)) :
          (Option Manager × Nat) × RRState).2 = rrSet st key (rrGet st key + 1) from rfl,
        ih1, List.range_succ_eq_map, List.map_cons, List.map_map]
      congr 1
      apply List.map_congr_left
      intro i _
      have h3 : rrGet st key + 1 + i = rrGet st key + (i + 1) := by omega
      simp [Function.comp, h3]
    · show rrGet (assignN (m0 :: ms) key (assign_manager st (m0 :: ms) key).2 n).1 key = _
      rw [hstep]
      rw [show ((((m0 :: ms)[rrGet st key % (m0 :: ms).length]?,
          rrGet st key % (m0 :: ms).length), rrSet st key (rrGet st key + 1)) :
          (Option Manager × Nat) × RRState).2 = rrSet st key (rrGet st key + 1) from rfl,
        ih2]
      omega

/-- C1: for a fixed rotation key and a fixed non-empty pool of size `k`,
`N` consecutive `assign_manager` calls return the rotation indices
`c, c+1, …, c+N-1 (mod k)` in order (so no member is ever skipped relative
to rotation order), and the member at each position `j < k` is returned
either `⌊N/k⌋` or `⌈N/k⌉ = (N+k-1)/k` times. -/
theorem assign_manager_round_robin_fair (pool : List Manager) (key : String)
    (st : RRState) (N j : Nat) (hp : pool ≠ []) (hj : j < pool.length) :
    ((assignN pool key st N).2).map Prod.snd
      = (List.range N).map (fun i => (rrGet st key + i) % pool.length) ∧
    (((assignN pool key st N).2).countP (fun res => decide (res.2 = j)) = N / pool.length ∨
     ((assignN pool key st N).2).countP (fun res => decide (res.2 = j))
       = (N + pool.length - 1) / pool.length) := by
  have hk : 0 < pool.length := List.length_pos.mpr hp
  obtain ⟨h1, _⟩ := assignN_spec pool key hp st N
  rw [h1]
  constructor
  · simp [List.map_map, Function.comp]
  · rw [List.countP_map]
    have : ((fun res : Option Manager × Nat => decide (res.2 = j)) ∘
        (fun i => (pool[(rrGet st key + i) % pool.length]?, (rrGet st key + i) % pool.length)))
        = fun i => decide ((rrGet st key + i) % pool.length = j) := rfl
    rw [this, countP_range_shift_mod pool.length (rrGet st key) j hk hj N]
    by_cases hres : residueOf pool.length (rrGet st key) j < N % pool.length
    · right
      have hs : 0 < N % pool.length := by omega
      have hqs : pool.length * (N / pool.length) + N % pool.length = N :=
        Nat.div_add_mod N pool.length
      have hmlt : N % pool.length < pool.length := Nat.mod_lt N hk
      have h2 : N + pool.length - 1
          = pool.length * (N / pool.length + 1) + (N % pool.length - 1) := by
        rw [Nat.mul_succ]; omega
      have hzero : (N % pool.length - 1) / pool.length = 0 := Nat.div_eq_of_lt (by omega)
      have hceil : (N + pool.length - 1) / pool.length = N / pool.length + 1 := by
        rw [h2, Nat.mul_add_div hk, hzero]
      rw [if_pos hres, hceil]
    · left
      rw [if_neg hres, Nat.add_zero]

theorem assign_manager_round_robin_fair_witness :
    ((assignN [mgrA, mgrB] "k" [] 5).2).map Prod.snd
      = (List.range 5).map (fun i => (rrGet [] "k" + i) % [mgrA, mgrB].length) ∧
    (((assignN [mgrA, mgrB] "k" [] 5).2).countP (fun res => decide (res.2 = 0))
       = 5 / [mgrA, mgrB].length ∨
     ((assignN [mgrA, mgrB] "k" [] 5).2).countP (fun res => decide (res.2 = 0))
       = (5 + [mgrA, mgrB].length - 1) / [mgrA, mgrB].length) :=
  assign_manager_round_robin_fair [mgrA, mgrB] "k" [] 5 0 (by decide) (by decide)

/-! ### C8 — soft senior preference on negative tone -/

theorem sortByLoad_sorted (l : List Manager) :
    (sortByLoad l).Pairwise (fun a b => a.current_load ≤ b.current_load) := by
  have h := pairwise_sortBy (fun a b => decide (a.current_load ≤ b.current_load))
    (fun a b => by rcases Nat.le_total a.current_load b.current_load with h | h <;>
      simp [h])
    (fun a b c hab hbc => by
      simp only [decide_eq_true_eq] at hab hbc ⊢
      omega) l
  exact h.imp (fun hab => by simpa using hab)

theorem mem_sortByLoad (l : List Manager) (m : Manager) :
    m ∈ sortByLoad l ↔ m ∈ l :=
  mem_sortBy _ l m

/-- C8: when the tone is negative, `filter_managers` restricts to the
senior subset exactly when a senior exists in the hard-filtered pool and
keeps the full pool otherwise; the restriction is applied after the stable
ascending workload sort and before the top-`n` truncation, so the returned
list is still sorted by workload ascending. -/
theorem filter_managers_negative_soft_preference (managers : List Manager)
    (office : Option String) (seg tt lang : String) (n : Nat) :
    (filter_managers managers office seg tt lang "Негативный" (some n)).Pairwise
      (fun a b => a.current_load ≤ b.current_load) ∧
    ((∃ m ∈ hard_filtered managers office seg tt lang, isSenior m = true) →
      ∀ m ∈ filter_managers managers office seg tt lang "Негативный" (some n),
        isSenior m = true) ∧
    ((∀ m ∈ hard_filtered managers office seg tt lang, isSenior m = false) →
      filter_managers managers office seg tt lang "Негативный" (some n)
        = (sortByLoad (hard_filtered managers office seg tt lang)).take n) := by
  have hL := sortByLoad_sorted (hard_filtered managers office seg tt lang)
  have hres : filter_managers managers office seg tt lang "Негативный" (some n)
      = (if ((sortByLoad (hard_filtered managers office seg tt lang)).filter isSenior).isEmpty
         then sortByLoad (hard_filtered managers office seg tt lang)
         else (sortByLoad (hard_filtered managers office seg tt lang)).filter isSenior).take n := by
    simp [filter_managers]
  refine ⟨?_, ?_, ?_⟩
  · rw [hres]
    split
    · exact List.Pairwise.sublist (List.take_sublist _ _) hL
    · exact List.Pairwise.sublist (List.take_sublist _ _) (hL.filter isSenior)
  · rintro ⟨m0, hm0, hsen⟩ m hm
    rw [hres] at hm
    have hne : ((sortByLoad (hard_filtered managers office seg tt lang)).filter
        isSenior).isEmpty = false := by
      rw [List.isEmpty_eq_false_iff_exists_mem]
      exact ⟨m0, List.mem_filter.mpr ⟨(mem_sortByLoad _ m0).mpr hm0, hsen⟩⟩
    rw [hne] at hm
    simp only [Bool.false_eq_true, if_false] at hm
    exact (List.mem_filter.mp (List.take_subset n _ hm)).2
  · intro hall
    rw [hres]
    have hnil : (sortByLoad (hard_filtered managers office seg tt lang)).filter
        isSenior = [] := by
      rw [List.filter_eq_nil_iff]
      intro m hm
      simp [hall m ((mem_sortByLoad _ m).mp hm)]
    rw [hnil]
    rfl

theorem filter_managers_negative_soft_preference_witness :
    (filter_managers [mgrA, mgrB] none "Mass" "Жалоба" "RU" "Негативный" (some 2)).Pairwise
      (fun a b => a.current_load ≤ b.current_load) ∧
    ((∃ m ∈ hard_filtered [mgrA, mgrB] none "Mass" "Жалоба" "RU", isSenior m = true) →
      ∀ m ∈ filter_managers [mgrA, mgrB] none "Mass" "Жалоба" "RU" "Негативный" (some 2),
        isSenior m = true) ∧
    ((∀ m ∈ hard_filtered [mgrA, mgrB] none "Mass" "Жалоба" "RU", isSenior m = false) →
      filter_managers [mgrA, mgrB] none "Mass" "Жалоба" "RU" "Негативный" (some 2)
        = (sortByLoad (hard_filtered [mgrA, mgrB] none "Mass" "Жалоба" "RU")).take 2) :=
  filter_managers_negative_soft_preference [mgrA, mgrB] none "Mass" "Жалоба" "RU" 2

/-! ### C2 — hard Kazakh-language filter -/

theorem assign_manager_mem (st : RRState) (pool : List Manager) (key : String) (m : Manager)
    (h : (assign_manager st pool key).1.1 = some m) : m ∈ pool := by
  match pool with
  | [] => exact absurd h (by simp [assign_manager])
  | m0 :: ms =>
    have h' : (m0 :: ms)[rrGet st key % (m0 :: ms).length]? = some m := h
    exact List.getElem?_mem h'

theorem mem_filter_managers (managers : List Manager) (office : Option String)
    (seg tt lang sent : String) (limit : Option Nat) (m : Manager)
    (hm : m ∈ filter_managers managers office seg tt lang sent limit) :
    m ∈ hard_filtered managers office seg tt lang := by
  have step : ∀ l : List Manager, m ∈ (if sent = "Негативный" then
      (if (l.filter isSenior).isEmpty then l else l.filter isSenior) else l) → m ∈ l := by
    intro l hml
    split at hml
    · split at hml
      · exact hml
      · exact List.mem_of_mem_filter hml
    · exact hml
  rw [← mem_sortByLoad (hard_filtered managers office seg tt lang) m]
  match limit with
  | none => exact step _ hm
  | some n => exact step _ (List.take_subset n _ hm)

theorem hard_filtered_kz (managers : List Manager) (office : Option String)
    (seg tt : String) (m : Manager)
    (hm : m ∈ hard_filtered managers office seg tt "KZ") :
    skillsContain m "KZ" = true := by
  unfold hard_filtered at hm
  simp only [if_pos rfl] at hm
  exact (List.mem_filter.mp hm).2

/-- The pool handed to `assign_manager` by `route_ticket` is either the
pool of the initially selected office or a hub pool, always produced by
`filter_managers` with the same segment/type/language/sentiment. -/
theorem fallback_scan_eligible_shape (managers : List Manager) (seg tt lang sent : String)
    (hubs : List String) (office : String) (eligible : List Manager) :
    (fallback_scan managers seg tt lang sent office eligible hubs).2 = eligible ∨
    ∃ f, (fallback_scan managers seg tt lang sent office eligible hubs).2
        = filter_managers managers (some f) seg tt lang sent (some 2) := by
  induction hubs generalizing office eligible with
  | nil => left; rfl
  | cons f rest ih =>
    simp only [fallback_scan]
    by_cases h0 : eligible.isEmpty = true
    · rw [if_pos h0]
      by_cases h1 : f ≠ office
      · rw [if_pos h1]
        by_cases h2 : (filter_managers managers (some f) seg tt lang sent (some 2)).isEmpty = true
        · rw [if_pos h2]
          rcases ih office (filter_managers managers (some f) seg tt lang sent (some 2))
            with h | ⟨f', h⟩
          · right; exact ⟨f, h⟩
          · right; exact ⟨f', h⟩
        · rw [if_neg h2]
          rcases ih f (filter_managers managers (some f) seg tt lang sent (some 2))
            with h | ⟨f', h⟩
          · right; exact ⟨f, h⟩
          · right; exact ⟨f', h⟩
      · rw [if_neg h1]
        exact ih office eligible
    · rw [if_neg h0]
      left; rfl

theorem route_ticket_manager_mem (env : GeoEnv) (st : RRState) (fc : Nat)
    (managers : List Manager) (country city region : Option String)
    (segment tt lang sent : String) (street house : Option String) (m : Manager)
    (h : (route_ticket env st fc managers country city region segment tt lang sent
        street house).1.manager = some m) :
    ∃ office', m ∈ filter_managers managers (some office') segment tt lang sent (some 2) := by
  dsimp only [route_ticket] at h
  have hmem := assign_manager_mem _ _ _ _ h
  rcases fallback_scan_eligible_shape managers segment tt lang sent ["Астана", "Алматы"]
      (get_target_office env country city region street house (some managers) fc).1.1
      (filter_managers managers
        (some (get_target_office env country city region street house (some managers) fc).1.1)
        segment tt lang sent (some 2)) with h1 | ⟨f, h1⟩
  · rw [h1] at hmem
    exact ⟨_, hmem⟩
  · rw [h1] at hmem
    exact ⟨f, hmem⟩

/-- C2: over every roster and every routing outcome (fallback-hub retries
included), a staff member lacking the Kazakh-language skill is never the
assigned manager of a request whose language bucket is `KZ`. -/
theorem route_ticket_kz_hard_filter (env : GeoEnv) (st : RRState) (fc : Nat)
    (managers : List Manager) (country city region : Option String)
    (segment tt sent : String) (street house : Option String) (m : Manager)
    (h : (route_ticket env st fc managers country city region segment tt "KZ" sent
        street house).1.manager = some m) :
    skillsContain m "KZ" = true := by
  obtain ⟨office', hmem⟩ := route_ticket_manager_mem env st fc managers country city region
    segment tt "KZ" sent street house m h
  exact hard_filtered_kz managers (some office') segment tt m
    (mem_filter_managers managers (some office') segment tt "KZ" sent (some 2) m hmem)

theorem route_ticket_kz_hard_filter_witness :
    (route_ticket envW [] 0 [mgrA, mgrB] (some "Russia") none none "Mass" "Жалоба" "KZ"
        "Нейтральный" none none).1.manager = some mgrA ∧
    skillsContain mgrA "KZ" = true :=
  ⟨by decide,
   route_ticket_kz_hard_filter envW [] 0 [mgrA, mgrB] (some "Russia") none none "Mass"
     "Жалоба" "Нейтральный" none none mgrA (by decide)⟩

/-! ### C3 — fallback escalation over the hub list -/

theorem fallback_scan_empty_start (managers : List Manager) (seg tt lang sent : String)
    (office0 : String) :
    fallback_scan managers seg tt lang sent office0 [] ["Астана", "Алматы"]
      = (if "Астана" ≠ office0 ∧
            filter_managers managers (some "Астана") seg tt lang sent (some 2) ≠ [] then
           ("Астана", filter_managers managers (some "Астана") seg tt lang sent (some 2))
         else if "Алматы" ≠ office0 ∧
            filter_managers managers (some "Алматы") seg tt lang sent (some 2) ≠ [] then
           ("Алматы", filter_managers managers (some "Алматы") seg tt lang sent (some 2))
         else (office0, [])) := by
  by_cases h1 : "Астана" = office0 <;>
    by_cases h2 : filter_managers managers (some "Астана") seg tt lang sent (some 2) = [] <;>
      by_cases h3 : "Алматы" = office0 <;>
        by_cases h4 : filter_managers managers (some "Алматы") seg tt lang sent (some 2) = [] <;>
          simp [fallback_scan, h1, h2, h3, h4]

/-- C3: when the eligible pool at the initially selected office is empty,
`route_ticket` retries the filter on the fixed hub list (Астана, then
Алматы), skipping the office already tried; the first hub with a
non-empty pool becomes the office reported in the decision (the original
office is kept only when both hubs also fail), and that office's pool is
exactly what feeds the round-robin assignment. -/
theorem route_ticket_fallback_escalation (env : GeoEnv) (st : RRState) (fc : Nat)
    (managers : List Manager) (country city region : Option String)
    (segment tt lang sent : String) (street house : Option String)
    (h0 : filter_managers managers
        (some (get_target_office env country city region street house (some managers) fc).1.1)
        segment tt lang sent (some 2) = []) :
    (route_ticket env st fc managers country city region segment tt lang sent street house).1.office
      = (if "Астана" ≠ (get_target_office env country city region street house (some managers) fc).1.1 ∧
            filter_managers managers (some "Астана") segment tt lang sent (some 2) ≠ [] then
           "Астана"
         else if "Алматы" ≠ (get_target_office env country city region street house (some managers) fc).1.1 ∧
            filter_managers managers (some "Алматы") segment tt lang sent (some 2) ≠ [] then
           "Алматы"
         else (get_target_office env country city region street house (some managers) fc).1.1) ∧
    ((route_ticket env st fc managers country city region segment tt lang sent street house).1.manager,
     (route_ticket env st fc managers country city region segment tt lang sent street house).1.rr_index)
      = (assign_manager st
          (filter_managers managers
            (some (if "Астана" ≠ (get_target_office env country city region street house (some managers) fc).1.1 ∧
                filter_managers managers (some "Астана") segment tt lang sent (some 2) ≠ [] then
              "Астана"
            else if "Алматы" ≠ (get_target_office env country city region street house (some managers) fc).1.1 ∧
                filter_managers managers (some "Алматы") segment tt lang sent (some 2) ≠ [] then
              "Алматы"
            else (get_target_office env country city region street house (some managers) fc).1.1))
            segment tt lang sent (some 2))
          (build_rr_key
            (if "Астана" ≠ (get_target_office env country city region street house (some managers) fc).1.1 ∧
                filter_managers managers (some "Астана") segment tt lang sent (some 2) ≠ [] then
              "Астана"
            else if "Алматы" ≠ (get_target_office env country city region street house (some managers) fc).1.1 ∧
                filter_managers managers (some "Алматы") segment tt lang sent (some 2) ≠ [] then
              "Алматы"
            else (get_target_office env country city region street house (some managers) fc).1.1)
            (decide (segment = "VIP" ∨ segment = "Priority"))
            (decide (tt = "Смена данных")) lang (decide (sent = "Негативный")))).1 := by
  have hfb := fallback_scan_empty_start managers segment tt lang sent
    (get_target_office env country city region street house (some managers) fc).1.1
  dsimp only [route_ticket]
  rw [h0, hfb]
  constructor
  · split_ifs <;> rfl
  · split_ifs with c1 c2
    · rfl
    · rfl
    · rw [h0]

theorem route_ticket_fallback_escalation_witness :
    filter_managers [mgrB]
        (some (get_target_office envW (some "Russia") none none none none (some [mgrB]) 0).1.1)
        "Mass" "Жалоба" "RU" "Нейтральный" (some 2) = [] ∧
    (route_ticket envW [] 0 [mgrB] (some "Russia") none none "Mass" "Жалоба" "RU" "Нейтральный"
        none none).1.office = "Алматы" ∧
    (route_ticket envW [] 0 [mgrB] (some "Russia") none none "Mass" "Жалоба" "RU" "Нейтральный"
        none none).1.manager = some mgrB := by
  refine ⟨by decide, ?_, by decide⟩
  have h := route_ticket_fallback_escalation envW [] 0 [mgrB] (some "Russia") none none
    "Mass" "Жалоба" "RU" "Нейтральный" none none (by decide)
  rw [h.1]
  decide

/-! ### C4 — equidistance tie-break -/

theorem find_sorted_offices_length (env : GeoEnv) (lat lon : ℚ) :
    (find_sorted_offices env lat lon).length = 15 := by
  unfold find_sorted_offices
  rw [length_sortBy, List.length_map]
  rfl

theorem find_sorted_offices_sorted (env : GeoEnv) (lat lon : ℚ) :
    (find_sorted_offices env lat lon).Pairwise (fun a b => a.1 ≤ b.1) := by
  have h := pairwise_sortBy pairLe pairLe_total pairLe_trans
    (OFFICE_COORDS.map fun nc => (env.dist lat lon nc.2.1 nc.2.2, nc.1))
  exact h.imp (fun hab => pairLe_fst _ _ hab)

/-- C4: once a coordinate is resolved (not foreign, city shortcut missed,
geocoding succeeded) and a roster is supplied, `get_target_office` works
on the distance-sorted office list: if the two nearest offices are within
the 50 km equidistance threshold it picks whichever has the lower
aggregate manager workload — the first in distance order when the
workloads are equal, because `≤` keeps `office1` — and otherwise the
single nearest office; the resolved coordinate is reported and the
foreign counter is unchanged. -/
theorem get_target_office_equidistant_tiebreak (env : GeoEnv)
    (country city region street house : Option String) (ms : List Manager)
    (fc : Nat) (lat lon : ℚ)
    (hf : is_foreign country = false)
    (hcs : city_shortcut env city = none)
    (hgc : geocode_client env city region country street house = some (lat, lon)) :
    ∃ d1 o1 d2 o2 rest,
      find_sorted_offices env lat lon = (d1, o1) :: (d2, o2) :: rest ∧
      (find_sorted_offices env lat lon).Pairwise (fun a b => a.1 ≤ b.1) ∧
      get_target_office env country city region street house (some ms) fc
        = (((if d2 - d1 ≤ EQUIDISTANT_THRESHOLD_KM then
               (if office_load ms o1 ≤ office_load ms o2 then o1 else o2)
             else o1), some lat, some lon), fc) := by
  obtain ⟨⟨d1, o1⟩, l1, hso⟩ : ∃ p1 l1, find_sorted_offices env lat lon = p1 :: l1 := by
    have hl := find_sorted_offices_length env lat lon
    cases hE : find_sorted_offices env lat lon with
    | nil => rw [hE] at hl; simp at hl
    | cons a l => exact ⟨a, l, rfl⟩
  obtain ⟨⟨d2, o2⟩, l2, rfl⟩ : ∃ p2 l2, l1 = p2 :: l2 := by
    have hl := find_sorted_offices_length env lat lon
    rw [hso] at hl
    cases l1 with
    | nil => simp at hl
    | cons a l => exact ⟨a, l, rfl⟩
  refine ⟨d1, o1, d2, o2, l2, hso, find_sorted_offices_sorted env lat lon, ?_⟩
  simp only [get_target_office, hf, Bool.false_eq_true, if_false, hcs, hgc, hso]
  split_ifs <;> rfl

theorem get_target_office_equidistant_tiebreak_witness :
    is_foreign none = false ∧
    city_shortcut envW none = none ∧
    geocode_client envW none (some "Алматы") none none none
      = some ((43.2220 : ℚ), (76.8512 : ℚ)) ∧
    (∃ d1 o1 d2 o2 rest,
      find_sorted_offices envW (43.2220 : ℚ) (76.8512 : ℚ) = (d1, o1) :: (d2, o2) :: rest ∧
      (find_sorted_offices envW (43.2220 : ℚ) (76.8512 : ℚ)).Pairwise (fun a b => a.1 ≤ b.1) ∧
      get_target_office envW none none (some "Алматы") none none (some []) 0
        = (((if d2 - d1 ≤ EQUIDISTANT_THRESHOLD_KM then
               (if office_load [] o1 ≤ office_load [] o2 then o1 else o2)
             else o1), some (43.2220 : ℚ), some (76.8512 : ℚ)), 0)) :=
  ⟨rfl, rfl, rfl,
   get_target_office_equidistant_tiebreak envW none none (some "Алматы") none none [] 0
     (43.2220 : ℚ) (76.8512 : ℚ) rfl rfl rfl⟩

/-! ### C5 — foreign-location alternation -/

theorem get_target_office_foreign (env : GeoEnv) (country city region street house : Option String)
    (managers : Option (List Manager)) (fc : Nat) (h : is_foreign country = true) :
    get_target_office env country city region street house managers fc
      = (((if fc % 2 = 0 then "Астана" else "Алматы"), none, none), fc + 1) := by
  simp only [get_target_office, h, if_true]

theorem get_target_seq_foreign (env : GeoEnv) (managers : Option (List Manager)) :
    ∀ (qs : List (Option String × Option String × Option String)) (fc : Nat),
    (∀ q ∈ qs, is_foreign q.1 = true) →
    get_target_seq env managers fc qs
      = ((List.range qs.length).map fun i =>
          (((if (fc + i) % 2 = 0 then "Астана" else "Алматы") : String),
            (none : Option ℚ), (none : Option ℚ)), fc + qs.length) := by
  intro qs
  induction qs with
  | nil => intro fc _; simp [get_target_seq]
  | cons q rest ih =>
    intro fc h
    have hq : is_foreign q.1 = true := h q (by simp)
    have hrest : ∀ p ∈ rest, is_foreign p.1 = true := fun p hp => h p (by simp [hp])
    simp only [get_target_seq]
    rw [get_target_office_foreign env q.1 q.2.1 q.2.2 none none managers fc hq,
      ih (fc + 1) hrest, List.length_cons, List.range_succ_eq_map, List.map_cons, List.map_map]
    refine congrArg₂ Prod.mk ?_ (by omega)
    refine congrArg₂ List.cons (by simp) ?_
    apply List.map_congr_left
    intro i _
    simp only [Function.comp_apply, Nat.succ_eq_add_one]
    rw [show fc + 1 + i = fc + (i + 1) from by omega]

/-- C5: for a stream of requests whose country is explicitly non-domestic,
`get_target_office` strictly alternates the two hub offices by the shared
counter's parity (Астана on even, Алматы on odd), increments the shared
counter once per request and reports no coordinate; a blank or absent
country is never foreign, while every other non-empty value outside the
domestic alias set is. -/
theorem foreign_location_alternation (env : GeoEnv) (managers : Option (List Manager))
    (fc : Nat) (qs : List (Option String × Option String × Option String))
    (h : ∀ q ∈ qs, is_foreign q.1 = true) :
    get_target_seq env managers fc qs
      = ((List.range qs.length).map fun i =>
          (((if (fc + i) % 2 = 0 then "Астана" else "Алматы") : String),
            (none : Option ℚ), (none : Option ℚ)), fc + qs.length) ∧
    is_foreign none = false ∧ is_foreign (some "") = false ∧
    (∀ c : String, c ≠ "" →
      (["казахстан", "kazakhstan", "kz", "қазақстан"].contains (pyLower (pyStrip c)) = false) →
      is_foreign (some c) = true) :=
  ⟨get_target_seq_foreign env managers qs fc h, rfl, rfl, fun c hc hk => by
    show (if c = "" then false
      else !(["казахстан", "kazakhstan", "kz", "қазақстан"].contains (pyLower (pyStrip c)))) = true
    rw [if_neg hc, hk]
    rfl⟩

theorem foreign_location_alternation_witness :
    (∀ q ∈ [((some "Russia" : Option String), (none : Option String), (none : Option String)),
        (some "Turkey", none, none), (some "UAE", none, none)], is_foreign q.1 = true) ∧
    get_target_seq envW none 0
        [(some "Russia", none, none), (some "Turkey", none, none), (some "UAE", none, none)]
      = ((List.range 3).map fun i =>
          (((if (0 + i) % 2 = 0 then "Астана" else "Алматы") : String),
            (none : Option ℚ), (none : Option ℚ)), 0 + 3) :=
  ⟨by decide,
   (foreign_location_alternation envW none 0
     [(some "Russia", none, none), (some "Turkey", none, none), (some "UAE", none, none)]
     (by decide)).1⟩

/-! ### C7 — silent degradation without a credential -/

/-- C7: with no remote-provider credential configured, `geocode_client`
returns without consulting the remote oracle at all (its result is
independent of the remote tier, and as a total function it cannot raise)
and coincides with the purely local gazetteer cascade on the region:
exact match, then typo-tolerant match, then substring containment, with
`None` exactly when all of them fail. -/
theorem geocode_client_no_key_degrades (env : GeoEnv)
    (city region country street house : Option String)
    (h : pyStrip env.apiKey = "") :
    geocode_client env city region country street house = local_gazetteer env region ∧
    ∀ remote' : String → Option (ℚ × ℚ),
      geocode_client ⟨env.apiKey, remote', env.closeMatchCity, env.closeMatchOffice, env.dist⟩
          city region country street house
        = geocode_client env city region country street house := by
  constructor
  · simp [geocode_client, local_gazetteer, twogis_geocode, h]
  · intro remote'
    have hfz : fuzzy_city_lookup
        ⟨env.apiKey, remote', env.closeMatchCity, env.closeMatchOffice, env.dist⟩
        = fuzzy_city_lookup env := rfl
    simp [geocode_client, twogis_geocode, h, hfz]

theorem geocode_client_no_key_degrades_witness :
    pyStrip envW.apiKey = "" ∧
    geocode_client envW none (some "Тараз") none none none
      = local_gazetteer envW (some "Тараз") ∧
    local_gazetteer envW (some "Тараз") = some ((42.9000 : ℚ), (71.3667 : ℚ)) :=
  ⟨rfl,
   (geocode_client_no_key_degrades envW none (some "Тараз") none none none rfl).1,
   rfl⟩

/-! ### C9 — idempotent resolution degradation -/

/-- C9: resolving (city = "Алматы", region = None, country = "Kazakhstan")
is a pure static-gazetteer hit: for every oracle environment — so in
particular with no remote provider configured, since neither the remote
geocoder nor difflib is ever consulted — two consecutive resolutions both
return office Алматы with the static coordinate (43.2220, 76.8512) taken
from `KZ_CITY_COORDS`, and the shared counter is unchanged; the
resolution is deterministic with no randomness. -/
theorem resolve_almaty_idempotent (env : GeoEnv) (mgrs : Option (List Manager)) (fc : Nat) :
    get_target_office env (some "Kazakhstan") (some "Алматы") none none none mgrs fc
      = (("Алматы", some (43.2220 : ℚ), some (76.8512 : ℚ)), fc) ∧
    get_target_office env (some "Kazakhstan") (some "Алматы") none none none mgrs
        (get_target_office env (some "Kazakhstan") (some "Алматы") none none none mgrs fc).2
      = (("Алматы", some (43.2220 : ℚ), some (76.8512 : ℚ)), fc) ∧
    tblLookup KZ_CITY_COORDS "Алматы" = some ((43.2220 : ℚ), (76.8512 : ℚ)) :=
  ⟨rfl, rfl, rfl⟩

theorem resolve_almaty_idempotent_witness :
    get_target_office envW (some "Kazakhstan") (some "Алматы") none none none none 7
      = (("Алматы", some (43.2220 : ℚ), some (76.8512 : ℚ)), 7) :=
  (resolve_almaty_idempotent envW none 7).1

end Freedom
